import Mathlib

/-!
Shallow embedding of the `mem-storage` crate (`src/lib.rs`): the `Memory`
trait's byte-store capability and the generic typed little/big-endian
read/write layer built on top of it.

A memory store is modelled as the list of its backing bytes (each `< 256`),
as in the vector-backed stores the crate is written for (`VecMemory`,
`TestMemory` in `tests/basic.rs`): `get`/`get_mut` are slice-indexing with
an exact bounds check, `try_read_byte`/`try_write_byte` are single-index
accesses.  Machine integers are bit patterns: a value of a `Value` type of
byte width `w` is a natural number `< 256 ^ w` (signed and unsigned types
of the same width share the same byte-level behaviour, since `to_le`/`to_be`
act on the bit pattern).  The host is little-endian, so the raw
reinterpretation in `try_read`/`try_write` is a verbatim copy and `to_le`
is the identity while `to_be` reverses the byte order, exactly as the
crate's doc comments and tests describe.  Panicking entry points are
modelled in `Except String`, the error carrying the `expect` message; the
fallible entry points are modelled in `Option` (`none` = the store's `Err`).
-/

namespace MemStorage

/-- The backing bytes of a memory store. -/
abbrev Mem := List Nat

/-- The ten eligible `Value` types (`impl_trait!(u8, i8, u16, i16, u32, i32,
u64, i64, u128, i128)` in `src/lib.rs`); the trait is sealed, so these are
all of them. -/
inductive ValueType
  | u8 | i8 | u16 | i16 | u32 | i32 | u64 | i64 | u128 | i128
deriving DecidableEq

/-- `core::mem::size_of::<V>()` for each eligible `Value` type. -/
def size_of : ValueType → Nat
  | .u8 => 1
  | .i8 => 1
  | .u16 => 2
  | .i16 => 2
  | .u32 => 4
  | .i32 => 4
  | .u64 => 8
  | .i64 => 8
  | .u128 => 16
  | .i128 => 16

/-- The little-endian byte representation of a bit pattern, `w` bytes,
least significant byte first (the in-memory layout of a `w`-byte integer on
a little-endian host). -/
def toLeBytes : Nat → Nat → List Nat
  | 0, _ => []
  | w + 1, x => x % 256 :: toLeBytes w (x / 256)

/-- The bit pattern whose little-endian byte representation is the given
list (how a little-endian host reads an integer out of raw bytes). -/
def fromLeBytes : List Nat → Nat
  | [] => 0
  | b :: rest => b + 256 * fromLeBytes rest

/-- `Value::to_le` on a little-endian host: a no-op on the bit pattern. -/
def to_le (_ : ValueType) (x : Nat) : Nat := x

/-- `Value::to_be` on a little-endian host: reverse the byte order of the
bit pattern (`swap_bytes`). -/
def to_be (V : ValueType) (x : Nat) : Nat :=
  fromLeBytes (List.reverse (toLeBytes (size_of V) x))

/-- `Memory::get(a..a + w)`: the read-only view of the byte range
`[a, a + w)`, or `Err` if the range is out of bounds (slice `get` on the
backing bytes, as in `TestMemory`/`VecMemory`). -/
def get (m : Mem) (a w : Nat) : Option (List Nat) :=
  if a + w ≤ m.length then some ((m.drop a).take w) else none

/-- `Memory::get_mut(a..a + w)`: same bounds check as `get`; the view's
bytes before mutation.  Mutation through the view is modelled by
`setRange`. -/
def get_mut (m : Mem) (a w : Nat) : Option (List Nat) :=
  if a + w ≤ m.length then some ((m.drop a).take w) else none

/-- `slice.copy_from_slice(raw_value)` through the mutable view of
`[a, a + bs.length)`: overwrite that range of `m` with `bs`. -/
def setRange (m : Mem) (a : Nat) (bs : List Nat) : Mem :=
  m.take a ++ bs ++ m.drop (a + bs.length)

/-- `Memory::try_read_byte` of the canonical store: single-index slice
`get` (`self.get(addr).map(Clone::clone)` in `TestMemory`). -/
def try_read_byte (m : Mem) (a : Nat) : Option Nat := m[a]?

/-- `Memory::try_write_byte` of the canonical store: single-index
`get_mut` then in-place store. -/
def try_write_byte (m : Mem) (a : Nat) (b : Nat) : Option Mem :=
  if a < m.length then some (m.set a b) else none

/-- `Memory::try_read::<V>`: view the byte range `[a, a + size_of V)` via
`get`, reinterpret it as a `V` (a verbatim little-endian decode on a
little-endian host), and apply `.to_le()`. -/
def try_read (m : Mem) (V : ValueType) (a : Nat) : Option Nat :=
  (get m a (size_of V)).map (fun bs => to_le V (fromLeBytes bs))

/-- `Memory::try_read_be::<V>`: `self.try_read(addr).map(Value::to_be)`. -/
def try_read_be (m : Mem) (V : ValueType) (a : Nat) : Option Nat :=
  (try_read m V a).map (to_be V)

/-- `Memory::try_write::<V>`: convert the value with `.to_le()`, validate
the full mutable view of `[a, a + size_of V)` via `get_mut` (failing before
any byte is touched), then copy the value's raw bytes into the view. -/
def try_write (m : Mem) (V : ValueType) (a : Nat) (x : Nat) : Option Mem :=
  (get_mut m a (size_of V)).map
    (fun _ => setRange m a (toLeBytes (size_of V) (to_le V x)))

/-- `Memory::try_write_be::<V>`: `self.try_write(addr, val.to_be())`. -/
def try_write_be (m : Mem) (V : ValueType) (a : Nat) (x : Nat) : Option Mem :=
  try_write m V a (to_be V x)

/-- The store after a call of `try_write` (a failing call mutates nothing:
`get_mut` fails before the copy). -/
def write_result (m : Mem) (V : ValueType) (a : Nat) (x : Nat) : Mem :=
  (try_write m V a x).getD m

/-- `Memory::read_byte`: `try_read_byte(addr).expect("failed to read from
memory")`; the error is the fatal panic with its message. -/
def read_byte (m : Mem) (a : Nat) : Except String Nat :=
  match try_read_byte m a with
  | some b => .ok b
  | none => .error "failed to read from memory"

/-- `Memory::write_byte`: `try_write_byte(addr, byte).expect("failed to
write to memory")`. -/
def write_byte (m : Mem) (a : Nat) (b : Nat) : Except String Mem :=
  match try_write_byte m a b with
  | some m' => .ok m'
  | none => .error "failed to write to memory"

/-- `Memory::read::<V>`: `try_read::<V>(addr).expect("failed to read
memory")`. -/
def read (m : Mem) (V : ValueType) (a : Nat) : Except String Nat :=
  match try_read m V a with
  | some v => .ok v
  | none => .error "failed to read memory"

/-- `Memory::read_be::<V>`: `self.read::<V>(addr).to_be()`. -/
def read_be (m : Mem) (V : ValueType) (a : Nat) : Except String Nat :=
  (read m V a).map (to_be V)

/-- `Memory::write::<V>`: `try_write::<V>(addr, val).expect("failed to
write memory")`. -/
def write (m : Mem) (V : ValueType) (a : Nat) (x : Nat) : Except String Mem :=
  match try_write m V a x with
  | some m' => .ok m'
  | none => .error "failed to write memory"

/-- `Memory::write_be::<V>`: `self.write(addr, val.to_be())`. -/
def write_be (m : Mem) (V : ValueType) (a : Nat) (x : Nat) : Except String Mem :=
  write m V a (to_be V x)

/-! ### Byte-encoding lemmas -/

theorem toLeBytes_length (w x : Nat) : (toLeBytes w x).length = w := by
  induction w generalizing x with
  | zero => rfl
  | succ w ih => simp [toLeBytes, ih]

theorem toLeBytes_mem_lt (w x : Nat) : ∀ b ∈ toLeBytes w x, b < 256 := by
  induction w generalizing x with
  | zero => intro b hb; simp [toLeBytes] at hb
  | succ w ih =>
    intro b hb
    rcases List.mem_cons.mp hb with h | h
    · exact h ▸ Nat.mod_lt _ (by norm_num)
    · exact ih (x / 256) b h

theorem fromLeBytes_toLeBytes (w x : Nat) (hx : x < 256 ^ w) :
    fromLeBytes (toLeBytes w x) = x := by
  induction w generalizing x with
  | zero =>
    rw [pow_zero] at hx
    simp [toLeBytes, fromLeBytes, Nat.lt_one_iff.mp hx]
  | succ w ih =>
    have hd : x / 256 < 256 ^ w := by
      rw [Nat.div_lt_iff_lt_mul (by norm_num)]
      calc x < 256 ^ (w + 1) := hx
        _ = 256 ^ w * 256 := by ring
    simp only [toLeBytes, fromLeBytes, ih (x / 256) hd]
    exact Nat.mod_add_div x 256

theorem toLeBytes_fromLeBytes (l : List Nat) (hl : ∀ b ∈ l, b < 256) :
    toLeBytes l.length (fromLeBytes l) = l := by
  induction l with
  | nil => rfl
  | cons b rest ih =>
    have hb : b < 256 := hl b (List.mem_cons_self b rest)
    have h1 : (b + 256 * fromLeBytes rest) % 256 = b :=
      (Nat.add_mul_mod_self_left b 256 (fromLeBytes rest)).trans (Nat.mod_eq_of_lt hb)
    have h2 : (b + 256 * fromLeBytes rest) / 256 = fromLeBytes rest := by
      rw [Nat.add_mul_div_left b (fromLeBytes rest) (by norm_num), Nat.div_eq_of_lt hb,
        Nat.zero_add]
    simp only [List.length_cons, toLeBytes, fromLeBytes, h1, h2]
    exact congrArg (b :: ·) (ih fun c hc => hl c (List.mem_cons_of_mem b hc))

theorem fromLeBytes_lt (l : List Nat) (hl : ∀ b ∈ l, b < 256) :
    fromLeBytes l < 256 ^ l.length := by
  induction l with
  | nil => simp [fromLeBytes]
  | cons b rest ih =>
    have hb : b < 256 := hl b (List.mem_cons_self b rest)
    have hr : fromLeBytes rest < 256 ^ rest.length :=
      ih fun c hc => hl c (List.mem_cons_of_mem b hc)
    calc fromLeBytes (b :: rest) = b + 256 * fromLeBytes rest := rfl
      _ < 256 + 256 * fromLeBytes rest := by omega
      _ = 256 * (1 + fromLeBytes rest) := by ring
      _ ≤ 256 * 256 ^ rest.length := Nat.mul_le_mul_left 256 (by omega)
      _ = 256 ^ (b :: rest).length := by rw [List.length_cons]; ring

theorem to_be_lt (V : ValueType) (x : Nat) : to_be V x < 256 ^ size_of V := by
  have h := fromLeBytes_lt (List.reverse (toLeBytes (size_of V) x))
    (fun b hb => toLeBytes_mem_lt (size_of V) x b (List.mem_reverse.mp hb))
  rwa [List.length_reverse, toLeBytes_length] at h

theorem to_be_to_be (V : ValueType) (x : Nat) (hx : x < 256 ^ size_of V) :
    to_be V (to_be V x) = x := by
  have h2 : ∀ b ∈ List.reverse (toLeBytes (size_of V) x), b < 256 :=
    fun b hb => toLeBytes_mem_lt (size_of V) x b (List.mem_reverse.mp hb)
  have h3 := toLeBytes_fromLeBytes (List.reverse (toLeBytes (size_of V) x)) h2
  rw [List.length_reverse, toLeBytes_length] at h3
  unfold to_be
  rw [h3, List.reverse_reverse, fromLeBytes_toLeBytes (size_of V) x hx]

/-! ### Range view and range update lemmas -/

theorem length_setRange (m : Mem) (a : Nat) (bs : List Nat)
    (h : a + bs.length ≤ m.length) : (setRange m a bs).length = m.length := by
  simp only [setRange, List.length_append, List.length_take, List.length_drop]
  omega

theorem get_setRange (m : Mem) (a : Nat) (bs : List Nat)
    (h : a + bs.length ≤ m.length) : get (setRange m a bs) a bs.length = some bs := by
  have hta : (m.take a).length = a := by
    rw [List.length_take]; omega
  unfold get
  rw [length_setRange m a bs h, if_pos h, setRange, List.append_assoc,
    List.drop_left' hta, List.take_left' rfl]

theorem getElem?_setRange_left (m : Mem) (a : Nat) (bs : List Nat) (i : Nat)
    (hm : a ≤ m.length) (hi : i < a) : (setRange m a bs)[i]? = m[i]? := by
  have hta : (m.take a).length = a := by
    rw [List.length_take]; omega
  rw [setRange, List.append_assoc, List.getElem?_append, hta, if_pos hi,
    List.getElem?_take, if_pos hi]

theorem getElem?_setRange_right (m : Mem) (a : Nat) (bs : List Nat) (i : Nat)
    (h : a + bs.length ≤ m.length) (hi : a + bs.length ≤ i) :
    (setRange m a bs)[i]? = m[i]? := by
  have h1 : (m.take a ++ bs).length = a + bs.length := by
    simp only [List.length_append, List.length_take]; omega
  rw [setRange, List.getElem?_append, h1, if_neg (by omega), List.getElem?_drop]
  exact congrArg (m[·]?) (by omega)

/-! ### Characterisations of the typed operations -/

theorem toLeBytes_one (y : Nat) : toLeBytes 1 y = [y % 256] := rfl

theorem try_write_some (m : Mem) (V : ValueType) (a x : Nat)
    (hb : a + size_of V ≤ m.length) :
    try_write m V a x = some (setRange m a (toLeBytes (size_of V) x)) := by
  rw [try_write, get_mut, if_pos hb]
  rfl

theorem try_write_none (m : Mem) (V : ValueType) (a x : Nat)
    (hb : ¬ a + size_of V ≤ m.length) : try_write m V a x = none := by
  rw [try_write, get_mut, if_neg hb]
  rfl

theorem try_write_eq_some (m : Mem) (V : ValueType) (a x : Nat) (m' : Mem)
    (h : try_write m V a x = some m') :
    a + size_of V ≤ m.length ∧ m' = setRange m a (toLeBytes (size_of V) x) := by
  by_cases hb : a + size_of V ≤ m.length
  · rw [try_write_some m V a x hb] at h
    exact ⟨hb, (Option.some_inj.mp h).symm⟩
  · rw [try_write_none m V a x hb] at h
    exact absurd h (by simp)

theorem write_eq_ok (m : Mem) (V : ValueType) (a x : Nat) (m' : Mem) :
    write m V a x = Except.ok m' ↔ try_write m V a x = some m' := by
  rw [write]
  cases h : try_write m V a x <;> simp

theorem read_eq_ok (m : Mem) (V : ValueType) (a v : Nat) :
    read m V a = Except.ok v ↔ try_read m V a = some v := by
  rw [read]
  cases h : try_read m V a <;> simp

/-- Shared round-trip core: a `try_write` of an in-range bit pattern succeeds,
the byte range `[a, a + w)` of the result holds the value's little-endian
bytes, and `try_read` there recovers the bit pattern. -/
theorem write_read_aux (V : ValueType) (m : Mem) (a y : Nat)
    (hb : a + size_of V ≤ m.length) (hy : y < 256 ^ size_of V) :
    try_write m V a y = some (setRange m a (toLeBytes (size_of V) y)) ∧
      try_read (setRange m a (toLeBytes (size_of V) y)) V a = some y := by
  refine ⟨try_write_some m V a y hb, ?_⟩
  have hg := get_setRange m a (toLeBytes (size_of V) y)
    (by rw [toLeBytes_length]; exact hb)
  rw [toLeBytes_length] at hg
  rw [try_read, hg, Option.map_some']
  simp only [to_le]
  rw [fromLeBytes_toLeBytes (size_of V) y hy]

/-! ### The claims -/

/-- C1: little-endian round trip.  For every eligible `Value` type `V`, every
store, every address and value with the byte range `[a, a + size_of V)` in
bounds, `try_write::<V>(a, x)` succeeds and `try_read::<V>(a)` on the
resulting store returns `x`; equivalently the panicking `write` succeeds and
a subsequent `read` yields `x`. -/
theorem le_roundtrip (V : ValueType) (m : Mem) (a x : Nat)
    (hb : a + size_of V ≤ m.length) (hx : x < 256 ^ size_of V) :
    ∃ m', try_write m V a x = some m' ∧ try_read m' V a = some x ∧
      write m V a x = Except.ok m' ∧ read m' V a = Except.ok x := by
  obtain ⟨hw, hr⟩ := write_read_aux V m a x hb hx
  exact ⟨setRange m a (toLeBytes (size_of V) x), hw, hr,
    (write_eq_ok m V a x _).mpr hw, (read_eq_ok _ V a x).mpr hr⟩

/-- Witness for C1: on a six-byte store of zeros, writing `0xABCD` as a
`u16` at address 1 succeeds and reading it back returns `0xABCD`. -/
theorem le_roundtrip_witness :
    (1 + size_of ValueType.u16 ≤ ([0, 0, 0, 0, 0, 0] : Mem).length ∧
      43981 < 256 ^ size_of ValueType.u16) ∧
    ∃ m', try_write [0, 0, 0, 0, 0, 0] ValueType.u16 1 43981 = some m' ∧
      try_read m' ValueType.u16 1 = some 43981 ∧
      write [0, 0, 0, 0, 0, 0] ValueType.u16 1 43981 = Except.ok m' ∧
      read m' ValueType.u16 1 = Except.ok 43981 :=
  ⟨⟨by decide, by decide⟩,
    le_roundtrip ValueType.u16 [0, 0, 0, 0, 0, 0] 1 43981 (by decide) (by decide)⟩

/-- C2: atomic failure.  If the byte range `[a, a + size_of V)` is not
entirely in bounds, `try_write::<V>(a, x)` returns `Err` and every byte of
the store after the call equals its byte before the call: `get_mut` rejects
the range before any byte is copied. -/
theorem atomic_failure (V : ValueType) (m : Mem) (a x : Nat)
    (h : ¬ a + size_of V ≤ m.length) :
    try_write m V a x = none ∧ write_result m V a x = m ∧
      ∀ i : Nat, (write_result m V a x)[i]? = m[i]? := by
  have hw := try_write_none m V a x h
  exact ⟨hw, by rw [write_result, hw]; rfl, fun i => by rw [write_result, hw]; rfl⟩

/-- Witness for C2: writing a `u32` at address 3 of a four-byte store fails
and leaves the store unchanged. -/
theorem atomic_failure_witness :
    (¬ 3 + size_of ValueType.u32 ≤ ([9, 9, 9, 9] : Mem).length) ∧
    (try_write [9, 9, 9, 9] ValueType.u32 3 7 = none ∧
      write_result [9, 9, 9, 9] ValueType.u32 3 7 = [9, 9, 9, 9] ∧
      ∀ i : Nat, (write_result [9, 9, 9, 9] ValueType.u32 3 7)[i]? =
        ([9, 9, 9, 9] : Mem)[i]?) :=
  ⟨by decide, atomic_failure ValueType.u32 [9, 9, 9, 9] 3 7 (by decide)⟩

/-- C3: frame property of writes.  A successful `try_write`, `try_write_be`,
`write` or `write_be` of a `V` at address `a` leaves every byte at an index
outside `[a, a + size_of V)` unchanged. -/
theorem write_frame (V : ValueType) (m : Mem) (a x : Nat) (m' : Mem)
    (h : try_write m V a x = some m' ∨ try_write_be m V a x = some m' ∨
      write m V a x = Except.ok m' ∨ write_be m V a x = Except.ok m') :
    ∀ i, i < a ∨ a + size_of V ≤ i → m'[i]? = m[i]? := by
  have key : ∀ y, try_write m V a y = some m' →
      ∀ i, i < a ∨ a + size_of V ≤ i → m'[i]? = m[i]? := by
    intro y hy i hi
    obtain ⟨hb, hm⟩ := try_write_eq_some m V a y m' hy
    subst hm
    rcases hi with hi | hi
    · exact getElem?_setRange_left m a _ i (by omega) hi
    · exact getElem?_setRange_right m a _ i
        (by rw [toLeBytes_length]; exact hb) (by rw [toLeBytes_length]; exact hi)
  rcases h with h | h | h | h
  · exact key x h
  · exact key (to_be V x) h
  · exact key x ((write_eq_ok m V a x m').mp h)
  · exact key (to_be V x) ((write_eq_ok m V a (to_be V x) m').mp h)

/-- Witness for C3: writing `9` as a `u8` at address 1 of `[1, 2, 3]` yields
`[1, 9, 3]` and leaves the bytes at indices 0 and 2 unchanged. -/
theorem write_frame_witness :
    (try_write [1, 2, 3] ValueType.u8 1 9 = some [1, 9, 3]) ∧
    ([1, 9, 3] : Mem)[0]? = ([1, 2, 3] : Mem)[0]? ∧
    ([1, 9, 3] : Mem)[2]? = ([1, 2, 3] : Mem)[2]? :=
  ⟨by decide,
    write_frame ValueType.u8 [1, 2, 3] 1 9 [1, 9, 3] (Or.inl (by decide)) 0
      (Or.inl (by decide)),
    write_frame ValueType.u8 [1, 2, 3] 1 9 [1, 9, 3] (Or.inl (by decide)) 2
      (Or.inr (by decide))⟩

/-- C4: out-of-bounds failure.  When `a + size_of V` exceeds the store's
length, all four fallible entry points return an error and all four
panicking entry points abort fatally. -/
theorem out_of_bounds_failure (V : ValueType) (m : Mem) (a x : Nat)
    (h : m.length < a + size_of V) :
    try_read m V a = none ∧ try_read_be m V a = none ∧
      try_write m V a x = none ∧ try_write_be m V a x = none ∧
      read m V a = Except.error "failed to read memory" ∧
      read_be m V a = Except.error "failed to read memory" ∧
      write m V a x = Except.error "failed to write memory" ∧
      write_be m V a x = Except.error "failed to write memory" := by
  have hr : try_read m V a = none := by
    rw [try_read, get, if_neg (by omega)]
    rfl
  have hw := try_write_none m V a x (by omega)
  have hwb := try_write_none m V a (to_be V x) (by omega)
  refine ⟨hr, by rw [try_read_be, hr]; rfl, hw, hwb, ?_, ?_, ?_, ?_⟩
  · rw [read, hr]
  · rw [read_be, read, hr]
    rfl
  · rw [write, hw]
  · rw [write_be, write, hwb]

/-- Witness for C4: a `u32` access at address 1 of a two-byte store fails
everywhere. -/
theorem out_of_bounds_failure_witness :
    (([5, 6] : Mem).length < 1 + size_of ValueType.u32) ∧
    (try_read [5, 6] ValueType.u32 1 = none ∧
      try_read_be [5, 6] ValueType.u32 1 = none ∧
      try_write [5, 6] ValueType.u32 1 7 = none ∧
      try_write_be [5, 6] ValueType.u32 1 7 = none ∧
      read [5, 6] ValueType.u32 1 = Except.error "failed to read memory" ∧
      read_be [5, 6] ValueType.u32 1 = Except.error "failed to read memory" ∧
      write [5, 6] ValueType.u32 1 7 = Except.error "failed to write memory" ∧
      write_be [5, 6] ValueType.u32 1 7 = Except.error "failed to write memory") :=
  ⟨by decide, out_of_bounds_failure ValueType.u32 [5, 6] 1 7 (by decide)⟩

/-- C5: concrete write byte-order scenario.  On 16 zero bytes,
`write::<u32>(4, 0xDDFFEEAA)` leaves bytes `[0xAA, 0xEE, 0xFF, 0xDD]` at
offsets 4..8, and `write_be::<u32>(4, 0xDDFFEEAA)` instead leaves
`[0xDD, 0xFF, 0xEE, 0xAA]` there. -/
theorem concrete_write_scenario :
    write ([0, 0, 0, 0, 0, 0, 0, 0, 0, 0, 0, 0, 0, 0, 0, 0] : Mem)
        ValueType.u32 4 0xDDFFEEAA =
      Except.ok [0, 0, 0, 0, 0xAA, 0xEE, 0xFF, 0xDD, 0, 0, 0, 0, 0, 0, 0, 0] ∧
    get (write_result [0, 0, 0, 0, 0, 0, 0, 0, 0, 0, 0, 0, 0, 0, 0, 0]
        ValueType.u32 4 0xDDFFEEAA) 4 4 = some [0xAA, 0xEE, 0xFF, 0xDD] ∧
    write_be ([0, 0, 0, 0, 0, 0, 0, 0, 0, 0, 0, 0, 0, 0, 0, 0] : Mem)
        ValueType.u32 4 0xDDFFEEAA =
      Except.ok [0, 0, 0, 0, 0xDD, 0xFF, 0xEE, 0xAA, 0, 0, 0, 0, 0, 0, 0, 0] ∧
    get ((try_write_be [0, 0, 0, 0, 0, 0, 0, 0, 0, 0, 0, 0, 0, 0, 0, 0]
        ValueType.u32 4 0xDDFFEEAA).getD []) 4 4 =
      some [0xDD, 0xFF, 0xEE, 0xAA] :=
  ⟨rfl, rfl, rfl, rfl⟩

/-- C6: concrete read byte-order scenario.  On backing bytes
`[0xBA, 0xCD, 0xAB, 0x00, 0x00]`, `read::<u8>(0)` returns `0xBA`,
`read::<u32>(1)` returns `0x0000ABCD`, and `read_be::<u32>(1)` returns
`0xCDAB0000`. -/
theorem concrete_read_scenario :
    read ([0xBA, 0xCD, 0xAB, 0x00, 0x00] : Mem) ValueType.u8 0 =
      Except.ok 0xBA ∧
    read ([0xBA, 0xCD, 0xAB, 0x00, 0x00] : Mem) ValueType.u32 1 =
      Except.ok 0x0000ABCD ∧
    read_be ([0xBA, 0xCD, 0xAB, 0x00, 0x00] : Mem) ValueType.u32 1 =
      Except.ok 0xCDAB0000 :=
  ⟨rfl, rfl, rfl⟩

/-- C7: big-endian round trip.  For every eligible `Value` type, store,
in-bounds address and value, `try_write_be` succeeds and `try_read_be` on
the resulting store returns the value; likewise for the panicking
`write_be`/`read_be`. -/
theorem be_roundtrip (V : ValueType) (m : Mem) (a x : Nat)
    (hb : a + size_of V ≤ m.length) (hx : x < 256 ^ size_of V) :
    ∃ m', try_write_be m V a x = some m' ∧ try_read_be m' V a = some x ∧
      write_be m V a x = Except.ok m' ∧ read_be m' V a = Except.ok x := by
  obtain ⟨hw, hr⟩ := write_read_aux V m a (to_be V x) hb (to_be_lt V x)
  refine ⟨setRange m a (toLeBytes (size_of V) (to_be V x)), hw, ?_,
    (write_eq_ok m V a (to_be V x) _).mpr hw, ?_⟩
  · rw [try_read_be, hr, Option.map_some', to_be_to_be V x hx]
  · rw [read_be, (read_eq_ok _ V a (to_be V x)).mpr hr]
    show Except.ok (to_be V (to_be V x)) = Except.ok x
    rw [to_be_to_be V x hx]

/-- Witness for C7: writing `0xABCD` big-endian as a `u16` at address 1 of a
six-byte store of zeros and reading it back big-endian returns `0xABCD`. -/
theorem be_roundtrip_witness :
    (1 + size_of ValueType.u16 ≤ ([0, 0, 0, 0, 0, 0] : Mem).length ∧
      43981 < 256 ^ size_of ValueType.u16) ∧
    ∃ m', try_write_be [0, 0, 0, 0, 0, 0] ValueType.u16 1 43981 = some m' ∧
      try_read_be m' ValueType.u16 1 = some 43981 ∧
      write_be [0, 0, 0, 0, 0, 0] ValueType.u16 1 43981 = Except.ok m' ∧
      read_be m' ValueType.u16 1 = Except.ok 43981 :=
  ⟨⟨by decide, by decide⟩,
    be_roundtrip ValueType.u16 [0, 0, 0, 0, 0, 0] 1 43981 (by decide) (by decide)⟩

/-- C9 counterexample: a failing `read::<u8>` aborts with the message
`failed to read memory` (the `expect` string at `src/lib.rs:153`), not with
`failed to read from memory` as the claim states. -/
theorem panic_message_counterexample :
    read ([] : Mem) ValueType.u8 0 ≠ Except.error "failed to read from memory" ∧
    read ([] : Mem) ValueType.u8 0 = Except.error "failed to read memory" := by
  refine ⟨fun h => ?_, rfl⟩
  rw [show read ([] : Mem) ValueType.u8 0 =
    Except.error "failed to read memory" from rfl] at h
  exact absurd (Except.error.inj h) (by decide)

/-- C9 (amended): each failing panicking entry point aborts with the fixed
`expect` message of its own definition: `read_byte` with
`failed to read from memory`, `write_byte` with `failed to write to memory`,
the generic `read`/`read_be` with `failed to read memory`, and the generic
`write`/`write_be` with `failed to write memory` — four fixed messages, not
two. -/
theorem panic_messages (m : Mem) (V : ValueType) (a b x : Nat)
    (h1 : m.length ≤ a) (h2 : m.length < a + size_of V) :
    read_byte m a = Except.error "failed to read from memory" ∧
    write_byte m a b = Except.error "failed to write to memory" ∧
    read m V a = Except.error "failed to read memory" ∧
    read_be m V a = Except.error "failed to read memory" ∧
    write m V a x = Except.error "failed to write memory" ∧
    write_be m V a x = Except.error "failed to write memory" := by
  have hrb : try_read_byte m a = none := List.getElem?_eq_none h1
  have hr : try_read m V a = none := by
    rw [try_read, get, if_neg (by omega)]
    rfl
  have hw := try_write_none m V a x (by omega)
  have hwb := try_write_none m V a (to_be V x) (by omega)
  refine ⟨?_, ?_, ?_, ?_, ?_, ?_⟩
  · rw [read_byte, hrb]
  · rw [write_byte, try_write_byte, if_neg (by omega)]
  · rw [read, hr]
  · rw [read_be, read, hr]
    rfl
  · rw [write, hw]
  · rw [write_be, write, hwb]

/-- Witness for the amended C9: every panicking entry point failing on the
empty store reports its own fixed message. -/
theorem panic_messages_witness :
    (([] : Mem).length ≤ 0 ∧ ([] : Mem).length < 0 + size_of ValueType.u8) ∧
    (read_byte [] 0 = Except.error "failed to read from memory" ∧
      write_byte [] 0 3 = Except.error "failed to write to memory" ∧
      read [] ValueType.u8 0 = Except.error "failed to read memory" ∧
      read_be [] ValueType.u8 0 = Except.error "failed to read memory" ∧
      write [] ValueType.u8 0 4 = Except.error "failed to write memory" ∧
      write_be [] ValueType.u8 0 4 = Except.error "failed to write memory") :=
  ⟨⟨by decide, by decide⟩,
    panic_messages [] ValueType.u8 0 3 4 (by decide) (by decide)⟩

/-- C10: single-byte identity.  For every store, address and byte value,
`try_read_byte` coincides with `try_read::<u8>`, `try_write_byte` with
`try_write::<u8>`, and the panicking `read_byte`/`write_byte` succeed with
the same result, or fail, exactly when `read::<u8>`/`write::<u8>` do. -/
theorem single_byte_identity (m : Mem) (a b : Nat) (hb : b < 256) :
    try_read_byte m a = try_read m ValueType.u8 a ∧
    try_write_byte m a b = try_write m ValueType.u8 a b ∧
    (read_byte m a).toOption = (read m ValueType.u8 a).toOption ∧
    (write_byte m a b).toOption = (write m ValueType.u8 a b).toOption := by
  have h1 : try_read_byte m a = try_read m ValueType.u8 a := by
    by_cases ha : a < m.length
    · have hsl : (m.drop a).take 1 = [m[a]] := by
        rw [List.drop_eq_getElem_cons ha]
        rfl
      rw [try_read_byte, try_read, get]
      simp only [size_of]
      rw [if_pos (by omega), hsl, Option.map_some', List.getElem?_eq_getElem ha]
      simp [fromLeBytes, to_le]
    · rw [try_read_byte, try_read, get]
      simp only [size_of]
      rw [if_neg (by omega), List.getElem?_eq_none (by omega)]
      rfl
  have h2 : try_write_byte m a b = try_write m ValueType.u8 a b := by
    by_cases ha : a < m.length
    · rw [try_write_byte, if_pos ha, try_write, get_mut]
      simp only [size_of]
      rw [if_pos (by omega), Option.map_some']
      congr 1
      rw [setRange]
      simp only [to_le]
      rw [toLeBytes_one, Nat.mod_eq_of_lt hb,
        List.set_eq_take_append_cons_drop, if_pos ha]
      simp [List.append_assoc]
    · rw [try_write_byte, if_neg ha, try_write, get_mut]
      simp only [size_of]
      rw [if_neg (by omega)]
      rfl
  have h3 : (read_byte m a).toOption = (read m ValueType.u8 a).toOption := by
    rw [read_byte, read, ← h1]
    cases try_read_byte m a <;> rfl
  have h4 : (write_byte m a b).toOption = (write m ValueType.u8 a b).toOption := by
    rw [write_byte, write, ← h2]
    cases try_write_byte m a b <;> rfl
  exact ⟨h1, h2, h3, h4⟩

/-- Witness for C10: on the one-byte store `[7]` at address 0 with byte 5,
the byte operations and the `u8`-typed operations agree. -/
theorem single_byte_identity_witness :
    (5 < 256) ∧
    (try_read_byte [7] 0 = try_read [7] ValueType.u8 0 ∧
      try_write_byte [7] 0 5 = try_write [7] ValueType.u8 0 5 ∧
      (read_byte [7] 0).toOption = (read [7] ValueType.u8 0).toOption ∧
      (write_byte [7] 0 5).toOption = (write [7] ValueType.u8 0 5).toOption) :=
  ⟨by decide, single_byte_identity [7] 0 5 (by decide)⟩

end MemStorage
